import Mathlib

/-!
Verification of the opencode-time-tracking plugin core.

This file gives a shallow embedding, in Lean 4, of the plugin's pure logic:

* the Jira-ticket regular-expression matcher of `TicketExtractor`
  (`src/services/TicketExtractor.ts`),
* the fallback resolution of `TicketResolver.resolve`
  (`src/services/TicketResolver.ts`),
* the in-memory session store of `SessionManager`
  (`src/services/SessionManager.ts`),
* the description and tool-summary generators of `DescriptionGenerator`
  (`src/utils/DescriptionGenerator.ts`),
* the `session.idle` finalization of `createEventHook`
  (`src/hooks/EventHook.ts`),
* the CSV formatting, header migration and row emission of
  `CsvFormatter`/`CsvWriter` (`src/utils/CsvFormatter.ts`,
  `src/services/CsvWriter.ts`), and
* the configuration loader `ConfigLoader.load`
  (`src/services/ConfigLoader.ts`).

Host I/O (filesystem, SDK calls, wall-clock, UUIDs, toasts) is represented by
explicit parameters; JavaScript strings are modelled as Lean `String` / `List
Char` and JavaScript `Map`/`Record` values as functions / association lists.
JavaScript truthiness on strings (empty string is falsy) is modelled
explicitly where the source relies on it.
-/

/-! ## JavaScript string primitives -/

/-- Whitespace for the purposes of `String.prototype.trim` (the characters
that actually occur in the CSV data paths: space, tab, CR, LF). -/
def jsWS (c : Char) : Bool := c == ' ' || c == '\t' || c == '\n' || c == '\r'

/-- `s.trim()` on a character list: drop whitespace from both ends. -/
def jsTrim (cs : List Char) : List Char :=
  ((cs.dropWhile jsWS).reverse.dropWhile jsWS).reverse

/-- `text.startsWith(pat)` on character lists. -/
def startsWithCh : List Char → List Char → Bool
  | _, [] => true
  | [], _ :: _ => false
  | c :: cs, p :: ps => c == p && startsWithCh cs ps

/-- JS truthiness of a `string | null` value: `null` and `""` are falsy. -/
def jsStrTruthy : Option String → Bool
  | none => false
  | some s => s ≠ ""

/-- `name.replace(/^@/, "")`: drop one leading `@` if present. Used by the
ignored-agents check in `createEventHook`. -/
def stripAt (s : String) : String :=
  match s.data with
  | '@' :: rest => String.mk rest
  | _ => s

/-! ## TicketExtractor: the ticket pattern

`DEFAULT_TICKET_PATTERN = /\b([A-Z]{2,}-\d+)\b/`; with a non-empty
`validProjects` whitelist the constructor instead builds
`\b((?:P1|P2|...)-\d+)\b` from the literal project keys.  The matcher below
implements the exact JS regex semantics for these two patterns: leftmost
match, ordered alternation, greedy runs (for these patterns backtracking of a
greedy run can never produce a match the greedy parse misses, because the
character class of each run excludes the character that must follow it, and
shrinking the digit run only moves a word character after `\b`). -/

/-- JS word character, the class `\w = [A-Za-z0-9_]` underlying `\b`. -/
def isWordChar (c : Char) : Bool :=
  (decide ('A' ≤ c) && decide (c ≤ 'Z')) ||
  (decide ('a' ≤ c) && decide (c ≤ 'z')) ||
  (decide ('0' ≤ c) && decide (c ≤ '9')) ||
  c == '_'

def isUpperAZ (c : Char) : Bool := decide ('A' ≤ c) && decide (c ≤ 'Z')

def isDigit09 (c : Char) : Bool := decide ('0' ≤ c) && decide (c ≤ '9')

/-- Word-ness of an optional character (string edges count as non-word). -/
def optWord : Option Char → Bool
  | none => false
  | some c => isWordChar c

/-- `\b` holds at a position iff word-ness differs across it. -/
def isBoundary (left right : Option Char) : Bool := optWord left != optWord right

/-- The trailing `\b` after a digit (a word character): the next character
must be absent or non-word. -/
def boundaryAfter : List Char → Bool
  | [] => true
  | c :: _ => !isWordChar c

/-- Match `([A-Z]{2,}-\d+)\b` at the current position of the default pattern,
`prev` being the character before the position (for the leading `\b`). -/
def matchDefaultAt (prev : Option Char) (cs : List Char) : Option (List Char) :=
  if isBoundary prev cs.head? then
    let us := cs.takeWhile isUpperAZ
    if us.length ≥ 2 then
      match cs.dropWhile isUpperAZ with
      | '-' :: r2 =>
        let ds := r2.takeWhile isDigit09
        if ds.length ≥ 1 && boundaryAfter (r2.dropWhile isDigit09) then
          some (us ++ '-' :: ds)
        else none
      | _ => none
    else none
  else none

/-- Match one whitelist alternative `p` (a literal project key) followed by
`-\d+` and the trailing `\b` at the current position. -/
def matchAltAt (prev : Option Char) (cs : List Char) (p : List Char) : Option (List Char) :=
  if isBoundary prev (p ++ ['-']).head? then
    if startsWithCh cs p then
      match cs.drop p.length with
      | '-' :: r2 =>
        let ds := r2.takeWhile isDigit09
        if ds.length ≥ 1 && boundaryAfter (r2.dropWhile isDigit09) then
          some (p ++ '-' :: ds)
        else none
      | _ => none
    else none
  else none

/-- Ordered alternation `(?:P1|P2|...)` of the whitelist pattern. -/
def matchWhitelistAt (ps : List (List Char)) (prev : Option Char) (cs : List Char) :
    Option (List Char) :=
  ps.findSome? (matchAltAt prev cs)

/-- Leftmost-match scan, as `String.prototype.match` without the `g` flag. -/
def findTicket (mAt : Option Char → List Char → Option (List Char)) :
    Option Char → List Char → Option (List Char)
  | prev, [] => mAt prev []
  | prev, c :: cs =>
    match mAt prev (c :: cs) with
    | some t => some t
    | none => findTicket mAt (some c) cs

namespace TicketExtractor

/-- The compiled `ticketPattern` chosen by the `TicketExtractor` constructor:
the whitelist pattern when `validProjects` is supplied and non-empty, the
default pattern otherwise. -/
def patternOf : Option (List String) → Option Char → List Char → Option (List Char)
  | some ps => if ps.length > 0 then matchWhitelistAt (ps.map String.data) else matchDefaultAt
  | none => matchDefaultAt

/-- `TicketExtractor.extractFromText`: first match of the compiled pattern
(capture group 1, which is the whole token). -/
def extractFromText (validProjects : Option (List String)) (text : String) : Option String :=
  (findTicket (patternOf validProjects) none text.data).map fun cs => String.mk cs

end TicketExtractor

/-! ## Configuration types

JSON-level view of `.opencode/opencode-project.json` (TypeScript types are
erased at runtime, so fields that the code reads without validating are
optional here; an absent `agent_defaults` / `ignored_agents` behaves exactly
like an empty one in every read site, so those two collapse to lists). -/

structure AgentDefaultConfig where
  issue_key : String
  account_key : Option String
deriving DecidableEq, Repr

structure GlobalDefaultConfig where
  issue_key : String
  /-- `account_key` as found in the JSON file; the loader never validates its
  presence. -/
  account_key : Option String
deriving DecidableEq, Repr

structure TimeTrackingJsonConfig where
  csv_file : String
  global_default : Option GlobalDefaultConfig
  agent_defaults : List (String × AgentDefaultConfig)
  ignored_agents : List String
  valid_projects : Option (List String)
deriving DecidableEq, Repr

structure TimeTrackingConfig extends TimeTrackingJsonConfig where
  user_email : String
deriving DecidableEq, Repr

structure OpencodeProjectConfig where
  time_tracking : Option TimeTrackingJsonConfig
deriving DecidableEq, Repr

/-- First-match association-list lookup, the behaviour of
`record?.[key]` on a JS object with string keys. -/
def lookupKey {β : Type} : List (String × β) → String → Option β
  | [], _ => none
  | (k, v) :: rest, key => if k = key then some v else lookupKey rest key

/-! ## ConfigLoader

`ConfigLoader.load` (newest version): reads
`.opencode/opencode-project.json`; if the file is missing or unparseable the
`try`/`catch` yields `null`, and if the parsed object has no `time_tracking`
section it yields `null`; otherwise it spreads the section unvalidated and
resolves `user_email` from `process.env.OPENCODE_USER_EMAIL`, then the
project `.env` file, then the OS user name (JS `||`, so empty strings are
skipped). The filesystem read and JSON parse are represented by the `parsed`
parameter (`none` = missing file or parse error). -/

namespace ConfigLoader

/-- `a || b` on `string | null` against a final `string` fallback. -/
def jsOrStr (a : Option String) (b : String) : String :=
  match a with
  | some s => if s = "" then b else s
  | none => b

def load (parsed : Option OpencodeProjectConfig) (envEmail dotenvEmail : Option String)
    (osUsername : String) : Option TimeTrackingConfig :=
  match parsed with
  | none => none
  | some pc =>
    match pc.time_tracking with
    | none => none
    | some j =>
      some { j with user_email := jsOrStr envEmail (jsOrStr dotenvEmail osUsername) }

end ConfigLoader

/-! ## TicketResolver -/

structure ResolvedTicketInfo where
  ticket : Option String
  /-- The resolved Tempo account key as the JS value: `none` is the
  `undefined` that `global_default.account_key` evaluates to when the parsed
  JSON lacks the key (with `global_default` itself present). -/
  accountKey : Option String
deriving DecidableEq, Repr

namespace TicketResolver

/-- The guard `agentName && this.config.agent_defaults?.[agentName]`:
an exact key lookup on the truthy agent name, no `@`-normalization. -/
def agentDefaultFor (cfg : TimeTrackingConfig) (agentName : Option String) :
    Option AgentDefaultConfig :=
  match agentName with
  | some a => if a = "" then none else lookupKey cfg.agent_defaults a
  | none => none

/-- The expression `this.config.global_default.account_key`: a `TypeError`
is thrown (`Except.error ()`) when `global_default` is absent; `undefined`
(`Except.ok none`) is returned when only `account_key` is absent. -/
def globalAccountKey (cfg : TimeTrackingConfig) : Except Unit (Option String) :=
  match cfg.global_default with
  | some g => Except.ok g.account_key
  | none => Except.error ()

/-- `TicketResolver.resolveAccountKey`: the agent-specific `account_key` when
the agent has one and it is truthy, else `global_default.account_key` —
which throws when `global_default` is absent. -/
def resolveAccountKey (cfg : TimeTrackingConfig) (agentName : Option String) :
    Except Unit (Option String) :=
  match agentDefaultFor cfg agentName with
  | some d =>
    match d.account_key with
    | some k => if k ≠ "" then Except.ok (some k) else globalAccountKey cfg
    | none => globalAccountKey cfg
  | none => globalAccountKey cfg

/-- `TicketResolver.resolve`.  The context ticket produced by
`TicketExtractor.extract` (a host round trip over messages and todos) is the
`contextTicket` parameter.  Every branch builds its return object by
evaluating `this.resolveAccountKey(agentName)`, so a `TypeError` raised
there propagates out of `resolve` (`Except.error`) instead of producing a
`ResolvedTicketInfo`. -/
def resolve (cfg : TimeTrackingConfig) (contextTicket agentName : Option String) :
    Except Unit ResolvedTicketInfo :=
  if jsStrTruthy contextTicket then
    (resolveAccountKey cfg agentName).map fun ak =>
      { ticket := contextTicket, accountKey := ak }
  else
    match agentDefaultFor cfg agentName with
    | some d =>
      (resolveAccountKey cfg agentName).map fun ak =>
        { ticket := some d.issue_key, accountKey := ak }
    | none =>
      match cfg.global_default with
      | some g =>
        (resolveAccountKey cfg agentName).map fun ak =>
          { ticket := some g.issue_key, accountKey := ak }
      | none =>
        (resolveAccountKey cfg agentName).map fun ak =>
          { ticket := none, accountKey := ak }

end TicketResolver

/-! ## SessionManager

The `Map<string, SessionData>` is modelled extensionally as a function from
session ids to optional session data; every observation the code makes goes
through `get`/`has`, so this is faithful. -/

structure TokenUsage where
  input : Nat
  output : Nat
  reasoning : Nat
  cacheRead : Nat
  cacheWrite : Nat
deriving DecidableEq, Repr

structure ModelInfo where
  modelID : String
  providerID : String
deriving DecidableEq, Repr

/-- `AgentInfo` (`src/types/AgentInfo.ts`): agent detected for a session. -/
structure AgentInfo where
  name : String
  timestamp : Nat
deriving DecidableEq, Repr

structure ActivityData where
  tool : String
  timestamp : Nat
  file : Option String
deriving DecidableEq, Repr

/-- `SessionData`: the 0.8 shape, with the `model` field of the snapshot's
`SessionData.ts` and the `agent` field (typed by `AgentInfo.ts`) that
`createEventHook` reads as `session.agent?.name`. -/
structure SessionData where
  ticket : Option String
  startTime : Nat
  activities : List ActivityData
  tokenUsage : TokenUsage
  model : Option ModelInfo
  agent : Option AgentInfo
deriving DecidableEq, Repr

def SessionStore : Type := String → Option SessionData

namespace SessionManager

def get (store : SessionStore) (sessionID : String) : Option SessionData :=
  store sessionID

def has (store : SessionStore) (sessionID : String) : Bool :=
  (store sessionID).isSome

/-- The zeroed state `create` builds: empty activities, all-zero token tally,
start time `Date.now()`, no ticket unless supplied, no model, no agent. -/
def freshSession (ticket : Option String) (now : Nat) : SessionData :=
  { ticket := ticket
    startTime := now
    activities := []
    tokenUsage := { input := 0, output := 0, reasoning := 0, cacheRead := 0, cacheWrite := 0 }
    model := none
    agent := none }

/-- `SessionManager.create`: builds a fresh session, stores it under the id
with `Map.set` (unconditionally, replacing any existing entry) and returns
it. -/
def create (store : SessionStore) (sessionID : String) (ticket : Option String) (now : Nat) :
    SessionData × SessionStore :=
  let s := freshSession ticket now
  (s, fun j => if j = sessionID then some s else store j)

def delete (store : SessionStore) (sessionID : String) : SessionStore :=
  fun j => if j = sessionID then none else store j

/-- Update the session under `sessionID` when present. -/
def modifySession (store : SessionStore) (sessionID : String)
    (f : SessionData → SessionData) : SessionStore :=
  fun j => if j = sessionID then (store sessionID).map f else store j

def addActivity (store : SessionStore) (sessionID : String) (activity : ActivityData) :
    SessionStore :=
  modifySession store sessionID fun s => { s with activities := s.activities ++ [activity] }

def addTokenUsage (store : SessionStore) (sessionID : String) (tokens : TokenUsage) :
    SessionStore :=
  modifySession store sessionID fun s =>
    { s with tokenUsage :=
      { input := s.tokenUsage.input + tokens.input
        output := s.tokenUsage.output + tokens.output
        reasoning := s.tokenUsage.reasoning + tokens.reasoning
        cacheRead := s.tokenUsage.cacheRead + tokens.cacheRead
        cacheWrite := s.tokenUsage.cacheWrite + tokens.cacheWrite } }

/-- `SessionManager.updateTicket`: `if (session && ticket)` — sets only when
the session exists and the supplied ticket is truthy (non-null, non-empty). -/
def updateTicket (store : SessionStore) (sessionID : String) (ticket : Option String) :
    SessionStore :=
  if jsStrTruthy ticket then
    modifySession store sessionID fun s => { s with ticket := ticket }
  else store

/-- `SessionManager.setModel`: `if (session && !session.model)` — first
detected model wins. -/
def setModel (store : SessionStore) (sessionID : String) (model : ModelInfo) : SessionStore :=
  modifySession store sessionID fun s =>
    match s.model with
    | none => { s with model := some model }
    | some _ => s

/-- Modelled from the spec: `SessionManager.getAndDelete` — the atomic pop
used by the idle handler ("atomically get and delete to prevent race
conditions"); its body is not in the source snapshot, only its call site.
It returns the stored state and removes the entry. -/
def getAndDelete (store : SessionStore) (sessionID : String) :
    Option SessionData × SessionStore :=
  (store sessionID, delete store sessionID)

end SessionManager

/-! ## DescriptionGenerator -/

namespace DescriptionGenerator

/-- The `reduce` into a `Record<string, number>`: an insertion-ordered count
per tool name. -/
def toolCounts (activities : List ActivityData) : List (String × Nat) :=
  activities.foldl
    (fun acc a =>
      match lookupKey acc a.tool with
      | some _ => acc.map fun p => if p.1 = a.tool then (p.1, p.2 + 1) else p
      | none => acc ++ [(a.tool, 1)])
    []

def countOf (counts : List (String × Nat)) (tool : String) : Nat :=
  (lookupKey counts tool).getD 0

/-- `activity.file.split("/").pop() || activity.file`. -/
def jsBasename (file : String) : String :=
  let segs := file.splitOn "/"
  match segs.getLast? with
  | some last => if last = "" then file else last
  | none => file

/-- The `Set<string>` of distinct basenames, in insertion order. -/
def filesWorkedOn (activities : List ActivityData) : List String :=
  activities.foldl
    (fun acc a =>
      match a.file with
      | some f =>
        let name := jsBasename f
        if acc.contains name then acc else acc ++ [name]
      | none => acc)
    []

/-- `DescriptionGenerator.generate`. -/
def generate (activities : List ActivityData) : String :=
  if activities.length = 0 then "No activities tracked"
  else
    let counts := toolCounts activities
    let files := filesWorkedOn activities
    let edits := countOf counts "edit" + countOf counts "write"
    let mainActivities : List String :=
      (if edits > 0 then [toString edits ++ " file edit(s)"] else []) ++
      (if countOf counts "read" > 0 then [toString (countOf counts "read") ++ " file read(s)"] else []) ++
      (if countOf counts "bash" > 0 then [toString (countOf counts "bash") ++ " command(s)"] else []) ++
      (if countOf counts "glob" + countOf counts "grep" > 0 then
        [toString (countOf counts "glob" + countOf counts "grep") ++ " search(es)"] else [])
    let description :=
      if mainActivities.length > 0 then String.intercalate ", " mainActivities
      else toString activities.length ++ " tool call(s)"
    if files.length > 0 ∧ files.length ≤ 5 then
      description ++ " - Files: " ++ String.intercalate ", " files
    else if files.length > 5 then
      description ++ " - " ++ toString files.length ++ " files"
    else description

/-- `DescriptionGenerator.generateToolSummary`: `tool(Nx)` pairs in insertion
order. -/
def generateToolSummary (activities : List ActivityData) : String :=
  String.intercalate ", "
    ((toolCounts activities).map fun p => p.1 ++ "(" ++ toString p.2 ++ "x)")

end DescriptionGenerator

/-! ## EventHook: the `session.idle` handler -/

/-- The payload the idle handler passes to `csvWriter.write` (exactly the
fields of the call in `createEventHook`). -/
structure IdleEntry where
  ticket : Option String
  accountKey : Option String
  startTime : Nat
  endTime : Nat
  durationSeconds : Nat
  description : String
  notes : String
  tokenUsage : TokenUsage
  model : Option String
  agent : Option String
deriving DecidableEq, Repr

/-- What the idle handler did: dropped the idle event without output
(`discarded`: missing or empty session, no CSV write, no toast), skipped an
ignored agent (info toast, no CSV write), or finalized the session (CSV row
written, success toast). -/
inductive IdleOutcome where
  | discarded : IdleOutcome
  | ignoredAgent : String → IdleOutcome
  | tracked : IdleEntry → IdleOutcome
deriving DecidableEq, Repr

/-- The CSV row the outcome appends, if any. -/
def IdleOutcome.row : IdleOutcome → Option IdleEntry
  | .tracked e => some e
  | _ => none

/-- The ignored-agents check of `createEventHook`: tolerant matching with or
without the `@` prefix on either side. -/
def isIgnoredAgent (ignoredAgents : List String) (agent : String) : Bool :=
  ignoredAgents.any fun ignored => stripAt ignored = stripAt agent

/-- The guard `agentString && isIgnoredAgent` of the idle handler, on the
session's detected agent. -/
def agentSkip (cfg : TimeTrackingConfig) (session : SessionData) : Bool :=
  match session.agent.map (·.name) with
  | some a => a ≠ "" && isIgnoredAgent cfg.ignored_agents a
  | none => false

/-- The `session.idle` branch of `createEventHook` (newest version):
atomically pop the session; drop it when absent or when it has no activity
and no positive `input + output` token count; otherwise finalize.  The
host-dependent inputs are explicit: `now` (`Date.now()`), `summaryTitle`
(the conversation summary fetched from the host, `null` on failure) and
`resolved` (the `ticketResolver.resolve` result, which itself performs host
calls).  The `csvWriter.write` call is represented by the returned
`IdleEntry`; write faults are host I/O outside the embedding. -/
def handleSessionIdle (store : SessionStore) (sessionID : String)
    (cfg : TimeTrackingConfig) (now : Nat) (summaryTitle : Option String)
    (resolved : ResolvedTicketInfo) : SessionStore × IdleOutcome :=
  let popped := SessionManager.getAndDelete store sessionID
  match popped.1 with
  | none => (popped.2, .discarded)
  | some session =>
    let hasActivity := session.activities.length > 0
    let hasTokens := session.tokenUsage.input + session.tokenUsage.output > 0
    if ¬hasActivity ∧ ¬hasTokens then (popped.2, .discarded)
    else
      let durationSeconds := (now - session.startTime + 500) / 1000
      let description :=
        match summaryTitle with
        | some t => if t = "" then DescriptionGenerator.generate session.activities else t
        | none => DescriptionGenerator.generate session.activities
      let toolSummary := DescriptionGenerator.generateToolSummary session.activities
      let modelString := session.model.map fun m => m.providerID ++ "/" ++ m.modelID
      let agentString := session.agent.map (·.name)
      if agentSkip cfg session then (popped.2, .ignoredAgent (agentString.getD ""))
      else
        (popped.2, .tracked
          { ticket := resolved.ticket
            accountKey := resolved.accountKey
            startTime := session.startTime
            endTime := now
            durationSeconds := durationSeconds
            description := description
            notes := "Auto-tracked: " ++ toolSummary
            tokenUsage := session.tokenUsage
            model := modelString
            agent := agentString })

/-! ## CsvFormatter -/

namespace CsvFormatter

/-- `CsvFormatter.escape`: `value.replace(/"/g, '""')`. -/
def escape (value : String) : String :=
  String.mk (value.data.foldr (fun c acc => if c = '"' then '"' :: '"' :: acc else c :: acc) [])

def pad2 (n : Nat) : String := if n < 10 then "0" ++ toString n else toString n

def pad4 (n : Nat) : String :=
  if n < 10 then "000" ++ toString n
  else if n < 100 then "00" ++ toString n
  else if n < 1000 then "0" ++ toString n
  else toString n

/-- Civil date from a count of days since 1970-01-01 (proleptic Gregorian,
the arithmetic underlying `Date.prototype.toISOString`). -/
def civilFromDays (z : Nat) : Nat × Nat × Nat :=
  let zs := z + 719468
  let era := zs / 146097
  let doe := zs % 146097
  let yoe := (doe - doe / 1460 + doe / 36524 - doe / 146096) / 365
  let y := yoe + era * 400
  let doy := doe - (365 * yoe + yoe / 4 - yoe / 100)
  let mp := (5 * doy + 2) / 153
  let d := doy - (153 * mp + 2) / 5 + 1
  let m := if mp < 10 then mp + 3 else mp - 9
  (if m ≤ 2 then y + 1 else y, m, d)

/-- `CsvFormatter.formatDate`: `new Date(ts).toISOString().split("T")[0]`,
the UTC calendar date `YYYY-MM-DD` of a millisecond timestamp. -/
def formatDate (timestamp : Nat) : String :=
  let c := civilFromDays (timestamp / 86400000)
  pad4 c.1 ++ "-" ++ pad2 c.2.1 ++ "-" ++ pad2 c.2.2

/-- `CsvFormatter.formatTime`: `new Date(ts).toTimeString().split(" ")[0]`,
the local wall-clock `HH:MM:SS`.  The host timezone enters as `tzOffsetMs`,
the local-time offset from UTC in milliseconds. -/
def formatTime (tzOffsetMs : Int) (timestamp : Nat) : String :=
  let localMs := ((Int.ofNat timestamp + tzOffsetMs) % 86400000).toNat
  let s := localMs / 1000
  pad2 (s / 3600) ++ ":" ++ pad2 (s % 3600 / 60) ++ ":" ++ pad2 (s % 60)

/-- Non-overlapping occurrences of the separator pattern `","`, the
`csvLine.match(/","/g)` count. -/
def countSepOcc : List Char → Nat
  | [] => 0
  | [_] => 0
  | [_, _] => 0
  | a :: b :: c :: rest =>
    if a = '"' ∧ b = ',' ∧ c = '"' then countSepOcc rest + 1
    else countSepOcc (b :: c :: rest)

/-- `CsvFormatter.countColumns`: 0 for blank lines, else one more than the
number of `","` separators. -/
def countColumns (csvLine : List Char) : Nat :=
  if jsTrim csvLine = [] then 0 else countSepOcc csvLine + 1

end CsvFormatter

/-! ## CsvWriter -/

namespace CsvWriter

/-- `CSV_HEADER`, the canonical 23-column header line. -/
def csvHeaderStr : String :=
  "id,start_date,end_date,user,ticket_name,issue_key,account_key,start_time,end_time,duration_seconds,tokens_used,tokens_remaining,story_points,description,notes,model,agent,tokens_input,tokens_output,tokens_reasoning,tokens_cache_read,tokens_cache_write,cost"

def csvHeader : List Char := csvHeaderStr.data

/-- `CSV_COLUMN_COUNT`. -/
def csvColumnCount : Nat := 23

/-- `isHeaderLine`: the line starts with `"id"` (quoted form) or `id,`. -/
def isHeaderLine (line : List Char) : Bool :=
  startsWithCh line ('"' :: 'i' :: 'd' :: '"' :: []) ||
  startsWithCh line ('i' :: 'd' :: ',' :: [])

/-- `padCsvLine`: append `,""` for each missing column. -/
def padCsvLine (line : List Char) (currentColumns targetColumns : Nat) : List Char :=
  if currentColumns ≥ targetColumns then line
  else
    line ++ ',' ::
      List.intercalate [','] (List.replicate (targetColumns - currentColumns) ['"', '"'])

/-- The content transformation of `CsvWriter.ensureHeader` on an existing
file: given the file's current text it returns `some newText` when the file
is rewritten and `none` when it is left untouched (the missing-file branch,
which only creates `CSV_HEADER + "\n"`, needs no content). -/
def ensureHeaderContent (content : List Char) : Option (List Char) :=
  let trimmed := jsTrim content
  if trimmed = [] then some (csvHeader ++ ['\n'])
  else
    let lines := trimmed.splitOn '\n'
    let firstLine := lines.headD []
    let hasHeader := isHeaderLine firstLine
    let dataLineIndex := if hasHeader then 1 else 0
    if lines.length ≤ dataLineIndex then
      if hasHeader ∧ CsvFormatter.countColumns firstLine < csvColumnCount then
        some (csvHeader ++ ['\n'])
      else none
    else
      let firstDataLine := lines.getD dataLineIndex []
      let columnCount := CsvFormatter.countColumns firstDataLine
      if columnCount ≥ csvColumnCount then
        if hasHeader then none
        else some (csvHeader ++ '\n' :: trimmed ++ ['\n'])
      else
        let dataLines := if hasHeader then lines.drop 1 else lines
        let padded := dataLines.map fun l => padCsvLine l (CsvFormatter.countColumns l) csvColumnCount
        some (csvHeader ++ '\n' :: List.intercalate ['\n'] padded ++ ['\n'])

/-- The argument of `CsvWriter.write`.  The `cost` field reaches the CSV as
`data.cost.toFixed(6)`; floating-point formatting is outside the embedding,
so the already-formatted string is carried. -/
structure CsvEntryData where
  ticket : Option String
  accountKey : String
  startTime : Nat
  endTime : Nat
  durationSeconds : Nat
  description : String
  notes : String
  tokenUsage : TokenUsage
  model : Option String
  agent : Option String
  costFixed6 : String
deriving DecidableEq, Repr

/-- The 23 fields of `CsvWriter.write`, in order; `uuid` is the generated
`randomUUID()` and `tzOffsetMs` the host timezone. -/
def csvFields (userEmail uuid : String) (tzOffsetMs : Int) (data : CsvEntryData) :
    List String :=
  let totalTokens :=
    data.tokenUsage.input + data.tokenUsage.output + data.tokenUsage.reasoning
  [uuid,
   CsvFormatter.formatDate data.startTime,
   CsvFormatter.formatDate data.endTime,
   userEmail,
   "",
   data.ticket.getD "",
   data.accountKey,
   CsvFormatter.formatTime tzOffsetMs data.startTime,
   CsvFormatter.formatTime tzOffsetMs data.endTime,
   toString data.durationSeconds,
   toString totalTokens,
   "",
   "",
   CsvFormatter.escape data.description,
   CsvFormatter.escape data.notes,
   data.model.getD "",
   data.agent.getD "",
   toString data.tokenUsage.input,
   toString data.tokenUsage.output,
   toString data.tokenUsage.reasoning,
   toString data.tokenUsage.cacheRead,
   toString data.tokenUsage.cacheWrite,
   data.costFixed6]

/-- `fields.map((f) => `"${f}"`).join(",")`: the emitted CSV line. -/
def renderCsvLine (userEmail uuid : String) (tzOffsetMs : Int) (data : CsvEntryData) :
    String :=
  String.intercalate "," ((csvFields userEmail uuid tzOffsetMs data).map
    fun f => "\"" ++ f ++ "\"")

end CsvWriter

/-! ## Well-formed legacy rows, for stating the header migration -/

/-- One all-quoted CSV field. -/
def quoteField (f : List Char) : List Char := '"' :: f ++ ['"']

/-- One all-quoted CSV row: quoted fields joined by commas. -/
def renderRow (r : List (List Char)) : List Char :=
  List.intercalate [','] (r.map quoteField)

/-- A legacy CSV file: newline-joined rows with a trailing newline. -/
def renderFile (rows : List (List (List Char))) : List Char :=
  List.intercalate ['\n'] (rows.map renderRow) ++ ['\n']

/-- A session has a non-null ticket stored under `j`. -/
def ticketSet (store : SessionStore) (j : String) : Prop :=
  ∃ s, store j = some s ∧ s.ticket ≠ none

/-! ## Concrete instances used by the witnesses and counterexamples -/

/-- A configuration with a context/agent/global fallback chain: agent default
`DEF-2`/`TD_DEV` under the key `@developer`, global default `GHI-3`/`TD_GEN`. -/
def cfgC2 : TimeTrackingConfig :=
  { csv_file := "t.csv"
    global_default := some { issue_key := "GHI-3", account_key := some "TD_GEN" }
    agent_defaults := [("@developer", { issue_key := "DEF-2", account_key := some "TD_DEV" })]
    ignored_agents := []
    valid_projects := none
    user_email := "user@example.com" }

/-- A configuration whose `time_tracking` section is present but whose
`global_default` lacks the required `account_key`. -/
def projC8 : OpencodeProjectConfig :=
  { time_tracking := some {
      csv_file := "t.csv"
      global_default := some { issue_key := "PROJ-1", account_key := none }
      agent_defaults := []
      ignored_agents := []
      valid_projects := none } }

/-- A stored session with a ticket, one activity and a non-zero tally. -/
def sessA : SessionData :=
  { ticket := some "AB-1"
    startTime := 100
    activities := [{ tool := "edit", timestamp := 120, file := some "x.ts" }]
    tokenUsage := { input := 7, output := 5, reasoning := 1, cacheRead := 2, cacheWrite := 3 }
    model := none
    agent := none }

def storeA : SessionStore := fun j => if j = "s1" then some sessA else none

/-- A session with no activities whose only positive token component is
`reasoning`. -/
def sessTok : SessionData :=
  { ticket := none
    startTime := 100
    activities := []
    tokenUsage := { input := 0, output := 0, reasoning := 5, cacheRead := 0, cacheWrite := 0 }
    model := none
    agent := none }

def storeTok : SessionStore := fun j => if j = "s1" then some sessTok else none

/-- A minimal configuration for the idle-handler statements. -/
def cfgEmpty : TimeTrackingConfig :=
  { csv_file := "t.csv"
    global_default := none
    agent_defaults := []
    ignored_agents := []
    valid_projects := none
    user_email := "user@example.com" }

/-- A write payload whose ticket and description both contain a double
quote. -/
def entryC9 : CsvWriter.CsvEntryData :=
  { ticket := some "AB\"1"
    accountKey := "TD_GEN"
    startTime := 0
    endTime := 60000
    durationSeconds := 60
    description := "say \"hi\""
    notes := "Auto-tracked: edit(1x)"
    tokenUsage := { input := 100, output := 50, reasoning := 0, cacheRead := 0, cacheWrite := 0 }
    model := some "anthropic/claude"
    agent := some "@dev"
    costFixed6 := "0.123456" }

/-- A single 15-column legacy row for the migration witness. -/
def rowC7 : List (List Char) :=
  ["r1".data, "2025-01-01".data, "2025-01-01".data, "user".data, "".data,
   "AB-1".data, "KEY".data, "09:00:00".data, "09:01:00".data, "60".data,
   "150".data, "".data, "".data, "work".data, "notes".data]

/-! # Theorems -/

/-- C3: on the default pattern, "PROJ-123" and "AB-1" match and "X-9" does
not, as the claim states; but "UTF-8" — which the claim and the 0.7.0
changelog entry say does not match — is matched by
`/\b([A-Z]{2,}-\d+)\b/` and extracted as a ticket. -/
theorem C3_default_pattern_examples :
    TicketExtractor.extractFromText none "PROJ-123" = some "PROJ-123" ∧
    TicketExtractor.extractFromText none "AB-1" = some "AB-1" ∧
    TicketExtractor.extractFromText none "X-9" = none ∧
    TicketExtractor.extractFromText none "UTF-8" = some "UTF-8" := by
  refine ⟨by decide, by decide, by decide, by decide⟩

/-- C10: with the whitelist `["X"]` the compiled pattern is
`\b((?:X)-\d+)\b`, which no longer enforces the two-uppercase-letters rule:
"X-9" is extracted from surrounding text although the default pattern
rejects it. -/
theorem C10_whitelist_single_letter :
    TicketExtractor.extractFromText (some ["X"]) "Work on X-9 now" = some "X-9" ∧
    TicketExtractor.extractFromText none "Work on X-9 now" = none := by
  refine ⟨by decide, by decide⟩

/-- C4: the ignored-agents check is `@`-prefix tolerant in both directions,
but the `agent_defaults` lookup of `TicketResolver.resolve` is an exact
string lookup: with the default configured under `"@developer"`, the
host-supplied name `"developer"` misses it and falls through to the global
default, while `"@developer"` hits it — contradicting the claim (and the
0.7.1 changelog entry) that the lookup is normalized. -/
theorem C4_agent_matching :
    isIgnoredAgent ["time-tracking"] "@time-tracking" = true ∧
    isIgnoredAgent ["@time-tracking"] "time-tracking" = true ∧
    TicketResolver.resolve cfgC2 none (some "developer") =
      Except.ok { ticket := some "GHI-3", accountKey := some "TD_GEN" } ∧
    TicketResolver.resolve cfgC2 none (some "@developer") =
      Except.ok { ticket := some "DEF-2", accountKey := some "TD_DEV" } := by
  refine ⟨by decide, by decide, rfl, rfl⟩

/-- C5: counterexample to "create is a no-op returning the existing state
when the id is present": `create` replaces the stored session (which had a
ticket, an activity and a non-zero tally) by a fresh zeroed one. -/
theorem C5_counterexample :
    storeA "s1" = some sessA ∧
    (SessionManager.create storeA "s1" none 999).2 "s1" =
      some (SessionManager.freshSession none 999) ∧
    SessionManager.freshSession none 999 ≠ sessA := by
  refine ⟨rfl, by decide, by decide⟩

/-- C5 (amended): `create(id, ticket)` always stores and returns a fresh
zeroed SessionState (empty activities, all-zero tally, start time `now`),
unconditionally overwriting any existing entry for `id` and leaving every
other id unchanged. -/
theorem C5_create_overwrites (store : SessionStore) (sessionID : String)
    (ticket : Option String) (now : Nat) :
    (SessionManager.create store sessionID ticket now).1 =
      SessionManager.freshSession ticket now ∧
    (SessionManager.create store sessionID ticket now).2 sessionID =
      some (SessionManager.freshSession ticket now) ∧
    ∀ j, j ≠ sessionID → (SessionManager.create store sessionID ticket now).2 j = store j := by
  refine ⟨rfl, ?_, ?_⟩
  · simp [SessionManager.create]
  · intro j hj
    simp [SessionManager.create, hj]

/-- C5 witness: the overwrite theorem applied at a concrete store and id. -/
theorem C5_create_overwrites_witness :
    (SessionManager.create storeA "s1" none 999).2 "s2" = storeA "s2" :=
  (C5_create_overwrites storeA "s1" none 999).2.2 "s2" (by decide)

/-- C6: counterexample to "the non-null-ticket predicate is preserved by
every SessionManager operation except deletion": `create` on an existing id
reverts the stored ticket to null. -/
theorem C6_counterexample :
    (storeA "s1").map (fun s => s.ticket) = some (some "AB-1") ∧
    ((SessionManager.create storeA "s1" none 999).2 "s1").map (fun s => s.ticket) =
      some none := by
  refine ⟨rfl, by decide⟩

/-- C6 (amended): once a session's ticket is non-null, `updateTicket` can
never revert it to null (it writes only truthy tickets), and the predicate
is preserved by `updateTicket`, `addActivity`, `addTokenUsage` and
`setModel`; only `delete` (which removes the entry) and `create` (which
replaces the entry by a fresh state) can make it false. -/
theorem C6_ticket_preserved (store : SessionStore) (id id2 : String)
    (h : ticketSet store id2) :
    (∀ t, ticketSet (SessionManager.updateTicket store id t) id2) ∧
    (∀ a, ticketSet (SessionManager.addActivity store id a) id2) ∧
    (∀ u, ticketSet (SessionManager.addTokenUsage store id u) id2) ∧
    (∀ m, ticketSet (SessionManager.setModel store id m) id2) := by
  obtain ⟨s, hs, hn⟩ := h
  refine ⟨?_, ?_, ?_, ?_⟩
  · intro t
    unfold SessionManager.updateTicket
    split
    · rename_i ht
      by_cases hj : id2 = id
      · subst hj
        refine ⟨{ s with ticket := t }, ?_, ?_⟩
        · simp [SessionManager.modifySession, hs]
        · cases t with
          | none => simp [jsStrTruthy] at ht
          | some t' => simp
      · exact ⟨s, by simp [SessionManager.modifySession, hj, hs], hn⟩
    · exact ⟨s, hs, hn⟩
  · intro a
    by_cases hj : id2 = id
    · subst hj
      exact ⟨{ s with activities := s.activities ++ [a] },
        by simp [SessionManager.addActivity, SessionManager.modifySession, hs], hn⟩
    · exact ⟨s, by simp [SessionManager.addActivity, SessionManager.modifySession, hj, hs], hn⟩
  · intro u
    by_cases hj : id2 = id
    · subst hj
      refine ⟨{ s with tokenUsage :=
          { input := s.tokenUsage.input + u.input
            output := s.tokenUsage.output + u.output
            reasoning := s.tokenUsage.reasoning + u.reasoning
            cacheRead := s.tokenUsage.cacheRead + u.cacheRead
            cacheWrite := s.tokenUsage.cacheWrite + u.cacheWrite } },
        by simp [SessionManager.addTokenUsage, SessionManager.modifySession, hs], hn⟩
    · exact ⟨s, by simp [SessionManager.addTokenUsage, SessionManager.modifySession, hj, hs], hn⟩
  · intro m
    by_cases hj : id2 = id
    · subst hj
      cases hm : s.model with
      | none =>
        exact ⟨{ s with model := some m },
          by simp [SessionManager.setModel, SessionManager.modifySession, hs, hm], hn⟩
      | some mo =>
        exact ⟨s,
          by simp [SessionManager.setModel, SessionManager.modifySession, hs, hm], hn⟩
    · exact ⟨s, by simp [SessionManager.setModel, SessionManager.modifySession, hj, hs], hn⟩

/-- C6 witness: a stored non-null ticket survives `updateTicket` with a null
ticket. -/
theorem C6_ticket_preserved_witness :
    ticketSet (SessionManager.updateTicket storeA "s1" none) "s1" :=
  (C6_ticket_preserved storeA "s1" "s1" ⟨sessA, rfl, by decide⟩).1 none

/-- C8: counterexample to "configuration loading rejects any configuration
lacking `global_default.account_key`": the loader returns a configuration
for a parsed file whose `global_default` has no `account_key`. -/
theorem C8_counterexample :
    (ConfigLoader.load (some projC8) none none "alice").isSome = true ∧
    projC8.time_tracking.bind (fun j => j.global_default.bind (fun g => g.account_key)) =
      none := by
  refine ⟨by decide, by decide⟩

/-- C8 (amended): `ConfigLoader.load` performs no structural validation at
all — it returns exactly the parsed `time_tracking` section (with only
`user_email` added) whenever that section is present, and `none` only when
the file is missing/unparseable or the section is absent. -/
theorem C8_load_no_validation (parsed : Option OpencodeProjectConfig)
    (envEmail dotenvEmail : Option String) (osUsername : String) :
    (ConfigLoader.load parsed envEmail dotenvEmail osUsername).map
      (fun c => c.toTimeTrackingJsonConfig) =
      parsed.bind (fun pc => pc.time_tracking) := by
  cases parsed with
  | none => rfl
  | some pc =>
    cases h : pc.time_tracking with
    | none => simp [ConfigLoader.load, h]
    | some j => simp [ConfigLoader.load, h]

/-- C9: quote-doubling is applied only to the description and notes fields
of `CsvWriter.write`; user email, ticket, account key, model and agent (and
the remaining fields) are emitted verbatim between the wrapping quotes, so a
double quote inside the ticket reaches the emitted row unescaped while one
inside the description is doubled. -/
theorem C9_escape_only_description_notes :
    (∀ (userEmail uuid : String) (tzOffsetMs : Int) (data : CsvWriter.CsvEntryData),
      (CsvWriter.csvFields userEmail uuid tzOffsetMs data).get? 3 = some userEmail ∧
      (CsvWriter.csvFields userEmail uuid tzOffsetMs data).get? 5 =
        some (data.ticket.getD "") ∧
      (CsvWriter.csvFields userEmail uuid tzOffsetMs data).get? 6 = some data.accountKey ∧
      (CsvWriter.csvFields userEmail uuid tzOffsetMs data).get? 13 =
        some (CsvFormatter.escape data.description) ∧
      (CsvWriter.csvFields userEmail uuid tzOffsetMs data).get? 14 =
        some (CsvFormatter.escape data.notes) ∧
      (CsvWriter.csvFields userEmail uuid tzOffsetMs data).get? 15 =
        some (data.model.getD "") ∧
      (CsvWriter.csvFields userEmail uuid tzOffsetMs data).get? 16 =
        some (data.agent.getD "")) ∧
    CsvWriter.renderCsvLine "u@x" "id0" 0 entryC9 =
      "\"id0\",\"1970-01-01\",\"1970-01-01\",\"u@x\",\"\",\"AB\"1\",\"TD_GEN\",\"00:00:00\",\"00:01:00\",\"60\",\"150\",\"\",\"\",\"say \"\"hi\"\"\",\"Auto-tracked: edit(1x)\",\"anthropic/claude\",\"@dev\",\"100\",\"50\",\"0\",\"0\",\"0\",\"0.123456\"" := by
  refine ⟨?_, by set_option maxRecDepth 8192 in decide⟩
  intro userEmail uuid tzOffsetMs data
  refine ⟨rfl, rfl, rfl, rfl, rfl, rfl, rfl⟩

/-- Every branch of `resolve` maps the same `resolveAccountKey` result into
its return object, for some choice of ticket. -/
theorem resolve_eq_map (cfg : TimeTrackingConfig) (ctx agentName : Option String) :
    ∃ t, TicketResolver.resolve cfg ctx agentName =
      (TicketResolver.resolveAccountKey cfg agentName).map
        (fun ak => { ticket := t, accountKey := ak }) := by
  unfold TicketResolver.resolve
  split
  · exact ⟨ctx, rfl⟩
  · cases h : TicketResolver.agentDefaultFor cfg agentName with
    | some d => exact ⟨some d.issue_key, by simp [h]⟩
    | none =>
      cases hg : cfg.global_default with
      | some g => exact ⟨some g.issue_key, by simp [h, hg]⟩
      | none => exact ⟨none, by simp [h, hg]⟩

/-- C2: counterexample to "(4) else absent": with no context ticket, no
agent default and no global default, `resolve` evaluates
`this.config.global_default.account_key` while building its return object
and throws a `TypeError` — it never returns a result with an absent
ticket. -/
theorem C2_counterexample :
    TicketResolver.resolve cfgEmpty none none = Except.error () := rfl

/-- C2 (amended): whenever `TicketResolver.resolve` returns, the ticket
follows the priority (1) context ticket, (2) the configured agent default's
issue key for the (truthy) agent name, (3) the global default issue key;
and, independently of the ticket branch, the account key is the
`resolveAccountKey` result — the agent-specific override when present and
truthy, else the global default account key.  The claim's clause "(4) else
absent" is never realized as a return: on that path (and on any path where
no agent override applies and the global default is absent)
`resolveAccountKey` throws a TypeError, which aborts `resolve`. -/
theorem C2_resolve_priority (cfg : TimeTrackingConfig) (ctx agentName : Option String) :
    (∀ t i, ctx = some t → t ≠ "" →
      TicketResolver.resolve cfg ctx agentName = Except.ok i → i.ticket = some t) ∧
    (ctx = none → ∀ a d i, agentName = some a → a ≠ "" →
      lookupKey cfg.agent_defaults a = some d →
      TicketResolver.resolve cfg ctx agentName = Except.ok i →
      i.ticket = some d.issue_key) ∧
    (ctx = none → TicketResolver.agentDefaultFor cfg agentName = none →
      ∀ g, cfg.global_default = some g →
      TicketResolver.resolve cfg ctx agentName =
        Except.ok { ticket := some g.issue_key, accountKey := g.account_key }) ∧
    (ctx = none → TicketResolver.agentDefaultFor cfg agentName = none →
      cfg.global_default = none →
      TicketResolver.resolve cfg ctx agentName = Except.error ()) ∧
    (∀ i, TicketResolver.resolve cfg ctx agentName = Except.ok i →
      TicketResolver.resolveAccountKey cfg agentName = Except.ok i.accountKey) ∧
    (TicketResolver.resolveAccountKey cfg agentName = Except.error () →
      TicketResolver.resolve cfg ctx agentName = Except.error ()) ∧
    (∀ a d k, agentName = some a → a ≠ "" →
      lookupKey cfg.agent_defaults a = some d → d.account_key = some k → k ≠ "" →
      TicketResolver.resolveAccountKey cfg agentName = Except.ok (some k)) ∧
    (TicketResolver.agentDefaultFor cfg agentName = none →
      ∀ g, cfg.global_default = some g →
      TicketResolver.resolveAccountKey cfg agentName = Except.ok g.account_key) := by
  refine ⟨?_, ?_, ?_, ?_, ?_, ?_, ?_, ?_⟩
  · intro t i hc ht hok
    subst hc
    rw [show TicketResolver.resolve cfg (some t) agentName =
        (TicketResolver.resolveAccountKey cfg agentName).map
          (fun ak => { ticket := some t, accountKey := ak }) from by
      unfold TicketResolver.resolve
      rw [if_pos (by simp [jsStrTruthy, ht])]] at hok
    cases h : TicketResolver.resolveAccountKey cfg agentName with
    | error e =>
      rw [h] at hok
      simp [Except.map] at hok
    | ok ak =>
      rw [h] at hok
      simp only [Except.map, Except.ok.injEq] at hok
      rw [← hok]
  · intro hc a d i ha hne hl hok
    subst hc
    subst ha
    rw [show TicketResolver.resolve cfg none (some a) =
        (TicketResolver.resolveAccountKey cfg (some a)).map
          (fun ak => { ticket := some d.issue_key, accountKey := ak }) from by
      unfold TicketResolver.resolve
      simp [jsStrTruthy, TicketResolver.agentDefaultFor, hne, hl]] at hok
    cases h : TicketResolver.resolveAccountKey cfg (some a) with
    | error e =>
      rw [h] at hok
      simp [Except.map] at hok
    | ok ak =>
      rw [h] at hok
      simp only [Except.map, Except.ok.injEq] at hok
      rw [← hok]
  · intro hc hadf g hg
    subst hc
    unfold TicketResolver.resolve
    simp [jsStrTruthy, hadf, hg, TicketResolver.resolveAccountKey,
      TicketResolver.globalAccountKey, Except.map]
  · intro hc hadf hg
    subst hc
    unfold TicketResolver.resolve
    simp [jsStrTruthy, hadf, hg, TicketResolver.resolveAccountKey,
      TicketResolver.globalAccountKey, Except.map]
  · intro i hok
    obtain ⟨t, ht⟩ := resolve_eq_map cfg ctx agentName
    rw [ht] at hok
    cases h : TicketResolver.resolveAccountKey cfg agentName with
    | error e =>
      rw [h] at hok
      simp [Except.map] at hok
    | ok ak =>
      rw [h] at hok
      simp only [Except.map, Except.ok.injEq] at hok
      rw [← hok]
  · intro herr
    obtain ⟨t, ht⟩ := resolve_eq_map cfg ctx agentName
    rw [ht, herr]
    rfl
  · intro a d k ha hne hl hk hkne
    subst ha
    simp [TicketResolver.resolveAccountKey, TicketResolver.agentDefaultFor, hne, hl, hk, hkne]
  · intro hadf g hg
    simp [TicketResolver.resolveAccountKey, hadf, TicketResolver.globalAccountKey, hg]

/-- C2 witness: on `cfgC2` a context ticket wins, an unconfigured agent gets
the global default pair, the agent-specific account key wins for the
configured agent, and on the no-default configuration the resolver throws
instead of returning an absent ticket — each via the priority theorem at a
concrete input. -/
theorem C2_resolve_priority_witness :
    ({ ticket := some "ABC-1", accountKey := some "TD_DEV" } : ResolvedTicketInfo).ticket =
      some "ABC-1" ∧
    TicketResolver.resolve cfgC2 none (some "@qa") =
      Except.ok { ticket := some "GHI-3", accountKey := some "TD_GEN" } ∧
    TicketResolver.resolveAccountKey cfgC2 (some "@developer") =
      Except.ok (some "TD_DEV") ∧
    TicketResolver.resolve cfgEmpty none (some "@qa") = Except.error () := by
  refine ⟨?_, ?_, ?_, ?_⟩
  · exact (C2_resolve_priority cfgC2 (some "ABC-1") (some "@developer")).1 "ABC-1"
      { ticket := some "ABC-1", accountKey := some "TD_DEV" } rfl (by decide) rfl
  · exact (C2_resolve_priority cfgC2 none (some "@qa")).2.2.1 rfl (by decide)
      { issue_key := "GHI-3", account_key := some "TD_GEN" } rfl
  · exact (C2_resolve_priority cfgC2 none (some "@developer")).2.2.2.2.2.2.1 "@developer"
      { issue_key := "DEF-2", account_key := some "TD_DEV" } "TD_DEV" rfl (by decide)
      (by decide) rfl (by decide)
  · exact (C2_resolve_priority cfgEmpty none (some "@qa")).2.2.2.1 rfl (by decide) rfl

/-- The idle handler always removes the session from the store, whatever the
outcome. -/
theorem handleSessionIdle_fst (store : SessionStore) (sessionID : String)
    (cfg : TimeTrackingConfig) (now : Nat) (title : Option String)
    (resolved : ResolvedTicketInfo) :
    (handleSessionIdle store sessionID cfg now title resolved).1 =
      SessionManager.delete store sessionID := by
  unfold handleSessionIdle
  cases h : store sessionID with
  | none => simp [SessionManager.getAndDelete, h]
  | some s =>
    simp only [SessionManager.getAndDelete, h]
    split
    · rfl
    · split <;> rfl

/-- An idle event for an id with no stored session is discarded. -/
theorem handleSessionIdle_absent (store : SessionStore) (sessionID : String)
    (cfg : TimeTrackingConfig) (now : Nat) (title : Option String)
    (resolved : ResolvedTicketInfo) (h : store sessionID = none) :
    (handleSessionIdle store sessionID cfg now title resolved).2 = .discarded := by
  unfold handleSessionIdle
  simp [SessionManager.getAndDelete, h]

/-- C1: counterexample to "a popped session with any positive token-tally
component is finalized": a session with no activities whose `reasoning`
component is 5 (all other components zero) is discarded silently, because
the handler's token check only looks at `input + output`. -/
theorem C1_counterexample :
    0 < sessTok.tokenUsage.reasoning ∧
    storeTok "s1" = some sessTok ∧
    (handleSessionIdle storeTok "s1" cfgEmpty 200 none
      { ticket := none, accountKey := none }).2 = .discarded ∧
    ((handleSessionIdle storeTok "s1" cfgEmpty 200 none
      { ticket := none, accountKey := none }).2).row = none := by
  refine ⟨by decide, rfl, by decide, by decide⟩

/-- C1 (amended): on a `session.idle` event the session is popped from the
map (the id maps to nothing afterwards, all other ids are untouched); a
missing session, or one with no activities and a zero `input + output`
token count, is discarded silently with no CSV row — even if `reasoning`
or cache components are positive; otherwise, when the detected agent is not
on the ignored list, exactly one CSV row is produced (an ignored agent
produces none); and a second idle event for the same id produces no
further row. -/
theorem C1_idle_finalization (store : SessionStore) (sessionID : String)
    (cfg : TimeTrackingConfig) (now : Nat) (title : Option String)
    (resolved : ResolvedTicketInfo) :
    (handleSessionIdle store sessionID cfg now title resolved).1 sessionID = none ∧
    (∀ j, j ≠ sessionID →
      (handleSessionIdle store sessionID cfg now title resolved).1 j = store j) ∧
    (store sessionID = none →
      (handleSessionIdle store sessionID cfg now title resolved).2 = .discarded) ∧
    (∀ s, store sessionID = some s → s.activities = [] →
      s.tokenUsage.input + s.tokenUsage.output = 0 →
      (handleSessionIdle store sessionID cfg now title resolved).2 = .discarded) ∧
    (∀ s, store sessionID = some s →
      (s.activities ≠ [] ∨ 0 < s.tokenUsage.input + s.tokenUsage.output) →
      agentSkip cfg s = false →
      ∃ e, (handleSessionIdle store sessionID cfg now title resolved).2 = .tracked e) ∧
    (∀ s, store sessionID = some s → agentSkip cfg s = true →
      ((handleSessionIdle store sessionID cfg now title resolved).2).row = none) ∧
    (∀ now2 title2 resolved2,
      ((handleSessionIdle (handleSessionIdle store sessionID cfg now title resolved).1
        sessionID cfg now2 title2 resolved2).2).row = none) := by
  refine ⟨?_, ?_, ?_, ?_, ?_, ?_, ?_⟩
  · rw [handleSessionIdle_fst]
    simp [SessionManager.delete]
  · intro j hj
    rw [handleSessionIdle_fst]
    simp [SessionManager.delete, hj]
  · intro h
    exact handleSessionIdle_absent store sessionID cfg now title resolved h
  · intro s h ha ht
    unfold handleSessionIdle
    simp [SessionManager.getAndDelete, h, ha, ht]
  · intro s h hne hskip
    have hcond : ¬(¬(s.activities.length > 0) ∧
        ¬(s.tokenUsage.input + s.tokenUsage.output > 0)) := by
      rcases hne with hact | htok
      · exact fun hc => hc.1 (List.length_pos.mpr hact)
      · exact fun hc => hc.2 htok
    unfold handleSessionIdle
    simp only [SessionManager.getAndDelete, h]
    rw [if_neg hcond]
    simp only [hskip]
    exact ⟨_, rfl⟩
  · intro s h hskip
    unfold handleSessionIdle
    simp only [SessionManager.getAndDelete, h]
    by_cases hcond : ¬(s.activities.length > 0) ∧
        ¬(s.tokenUsage.input + s.tokenUsage.output > 0)
    · rw [if_pos hcond]
      rfl
    · rw [if_neg hcond]
      simp only [hskip]
      rfl
  · intro now2 title2 resolved2
    have h1 : (handleSessionIdle store sessionID cfg now title resolved).1 sessionID = none := by
      rw [handleSessionIdle_fst]
      simp [SessionManager.delete]
    rw [handleSessionIdle_absent _ _ cfg now2 title2 resolved2 h1]
    rfl

/-- C1 witness: a session with one activity and no ignored agent is
finalized into exactly one row; the finalization theorem applied at a
concrete store. -/
theorem C1_idle_finalization_witness :
    ∃ e, (handleSessionIdle storeA "s1" cfgEmpty 200 none
      { ticket := none, accountKey := none }).2 = .tracked e :=
  (C1_idle_finalization storeA "s1" cfgEmpty 200 none
    { ticket := none, accountKey := none }).2.2.2.2.1 sessA rfl
    (Or.inl (by decide)) (by decide)

/-! ## Lemmas on rendered CSV rows, for the header-migration theorem -/

theorem myInter_single {α : Type} (s : List α) (a : List α) :
    List.intercalate s [a] = a := by
  simp [List.intercalate]

theorem myInter_cons {α : Type} (s a b : List α) (t : List (List α)) :
    List.intercalate s (a :: b :: t) = a ++ s ++ List.intercalate s (b :: t) := by
  simp [List.intercalate, List.intersperse_cons_cons, List.append_assoc]

theorem myInter_append {α : Type} (s : List α) (xs ys : List (List α))
    (hx : xs ≠ []) (hy : ys ≠ []) :
    List.intercalate s (xs ++ ys) = List.intercalate s xs ++ s ++ List.intercalate s ys := by
  induction xs with
  | nil => exact absurd rfl hx
  | cons x xs ih =>
    cases xs with
    | nil =>
      cases ys with
      | nil => exact absurd rfl hy
      | cons y ys => simp [myInter_cons, myInter_single]
    | cons x2 xs2 =>
      simp only [List.cons_append]
      rw [myInter_cons, myInter_cons]
      rw [← List.cons_append, ih (by simp)]
      simp [List.append_assoc]

/-- The precise head shape of a rendered row. -/
theorem renderRow_shape (f : List Char) (fs : List (List Char)) :
    ∃ w, renderRow (f :: fs) = '"' :: (f ++ '"' :: w) := by
  cases fs with
  | nil =>
    refine ⟨[], ?_⟩
    simp [renderRow, quoteField, myInter_single]
  | cons g t =>
    refine ⟨',' :: renderRow (g :: t), ?_⟩
    show List.intercalate [','] (quoteField f :: quoteField g :: t.map quoteField) = _
    rw [myInter_cons]
    simp [quoteField, renderRow, List.append_assoc]

/-- A rendered nonempty row ends with a quote. -/
theorem renderRow_last (r : List (List Char)) (h : r ≠ []) :
    ∃ y, renderRow r = y ++ ['"'] := by
  induction r with
  | nil => exact absurd rfl h
  | cons f fs ih =>
    cases fs with
    | nil =>
      refine ⟨'"' :: f, ?_⟩
      simp [renderRow, quoteField, myInter_single]
    | cons g t =>
      obtain ⟨y, hy⟩ := ih (by simp)
      refine ⟨quoteField f ++ [','] ++ y, ?_⟩
      show List.intercalate [','] (quoteField f :: quoteField g :: t.map quoteField) = _
      rw [myInter_cons]
      show quoteField f ++ [','] ++ renderRow (g :: t) = _
      rw [hy]
      simp [List.append_assoc]

/-- Every character of a rendered row is a quote, a comma, or a field
character. -/
theorem renderRow_mem (c : Char) (r : List (List Char)) (hc : c ∈ renderRow r) :
    c = '"' ∨ c = ',' ∨ ∃ f ∈ r, c ∈ f := by
  induction r with
  | nil => simp [renderRow, List.intercalate] at hc
  | cons f fs ih =>
    cases fs with
    | nil =>
      simp only [renderRow, List.map_cons, List.map_nil, myInter_single, quoteField] at hc
      rcases List.mem_cons.mp hc with h | h
      · exact Or.inl h
      · rcases List.mem_append.mp h with h2 | h2
        · exact Or.inr (Or.inr ⟨f, by simp, h2⟩)
        · simp at h2
          exact Or.inl h2
    | cons g t =>
      have hsplit : renderRow (f :: g :: t) =
          quoteField f ++ [','] ++ renderRow (g :: t) := by
        show List.intercalate [','] (quoteField f :: quoteField g :: t.map quoteField) = _
        rw [myInter_cons]
        rfl
      rw [hsplit] at hc
      rcases List.mem_append.mp hc with h | h
      · rcases List.mem_append.mp h with h2 | h2
        · simp only [quoteField] at h2
          rcases List.mem_cons.mp h2 with h3 | h3
          · exact Or.inl h3
          · rcases List.mem_append.mp h3 with h4 | h4
            · exact Or.inr (Or.inr ⟨f, by simp, h4⟩)
            · simp at h4
              exact Or.inl h4
        · simp at h2
          exact Or.inr (Or.inl h2)
      · rcases ih h with h2 | h2 | ⟨f2, hf2, hcf2⟩
        · exact Or.inl h2
        · exact Or.inr (Or.inl h2)
        · exact Or.inr (Or.inr ⟨f2, List.mem_cons_of_mem _ hf2, hcf2⟩)

/-- Dropping while a predicate holds never empties a list whose last element
fails the predicate. -/
theorem dropWhile_append_ne_nil (p : Char → Bool) (y : List Char) (c : Char)
    (hc : p c = false) : (y ++ [c]).dropWhile p ≠ [] := by
  induction y with
  | nil => simp [List.dropWhile, hc]
  | cons d y ih =>
    by_cases hd : p d
    · simpa [List.dropWhile_cons, hd] using ih
    · simp [List.dropWhile_cons, hd]

/-- Trimming a wrapped body (a line block starting and ending with a quote)
plus the trailing newline recovers the body. -/
theorem jsTrim_wrap (x v y : List Char) (hv : x = '"' :: v) (hy : x = y ++ ['"']) :
    jsTrim (x ++ ['\n']) = x := by
  unfold jsTrim
  have h1 : (x ++ ['\n']).dropWhile jsWS = x ++ ['\n'] := by
    rw [hv]
    simp [List.dropWhile_cons, jsWS]
  rw [h1]
  have h2 : (x ++ ['\n']).reverse = '\n' :: '"' :: y.reverse := by
    rw [hy]
    simp
  rw [h2]
  have h3 : ('\n' :: '"' :: y.reverse).dropWhile jsWS = '"' :: y.reverse := by
    simp [List.dropWhile_cons, jsWS]
  rw [h3]
  rw [show ('"' :: y.reverse) = (y ++ ['"']).reverse by simp]
  rw [List.reverse_reverse, hy]

/-- A rendered line never trims to the empty list. -/
theorem jsTrim_quote_ne_nil (w : List Char) : jsTrim ('"' :: w) ≠ [] := by
  unfold jsTrim
  have h1 : ('"' :: w).dropWhile jsWS = '"' :: w := by
    simp [List.dropWhile_cons, jsWS]
  rw [h1]
  intro hcon
  have h2 : (('"' :: w).reverse.dropWhile jsWS) = [] := by
    have := congrArg List.reverse hcon
    simpa using this
  have h3 : ('"' :: w).reverse = w.reverse ++ ['"'] := by simp
  rw [h3] at h2
  exact dropWhile_append_ne_nil jsWS w.reverse '"' (by decide) h2

/-- A comma-free list contains no `","` separator occurrence. -/
theorem countSepOcc_no_comma (s : List Char) (h : ',' ∉ s) :
    CsvFormatter.countSepOcc s = 0 := by
  induction s with
  | nil => rfl
  | cons a t ih =>
    have ha : ',' ∉ t := fun hmem => h (List.mem_cons_of_mem _ hmem)
    cases t with
    | nil => rfl
    | cons b t2 =>
      cases t2 with
      | nil => rfl
      | cons c t3 =>
        have hb : b ≠ ',' := by
          intro hbe
          exact h (by simp [hbe])
        rw [show CsvFormatter.countSepOcc (a :: b :: c :: t3) =
            if a = '"' ∧ b = ',' ∧ c = '"' then CsvFormatter.countSepOcc t3 + 1
            else CsvFormatter.countSepOcc (b :: c :: t3) from rfl]
        rw [if_neg (by tauto)]
        exact ih ha

/-- Scanning a comma-free block `v` followed by a separator consumes the
separator and one count. -/
theorem countSepOcc_append_sep (v rest : List Char) (h : ',' ∉ v) :
    CsvFormatter.countSepOcc (v ++ '"' :: ',' :: '"' :: rest) =
      CsvFormatter.countSepOcc rest + 1 := by
  induction v with
  | nil =>
    rw [List.nil_append]
    rw [show CsvFormatter.countSepOcc ('"' :: ',' :: '"' :: rest) =
        if ('"' : Char) = '"' ∧ (',' : Char) = ',' ∧ ('"' : Char) = '"' then
          CsvFormatter.countSepOcc rest + 1
        else CsvFormatter.countSepOcc (',' :: '"' :: rest) from rfl]
    rw [if_pos ⟨rfl, rfl, rfl⟩]
  | cons d v ih =>
    have hv : ',' ∉ v := fun hmem => h (List.mem_cons_of_mem _ hmem)
    cases v with
    | nil =>
      rw [show ([d] ++ '"' :: ',' :: '"' :: rest) = d :: '"' :: ',' :: '"' :: rest from rfl]
      rw [show CsvFormatter.countSepOcc (d :: '"' :: ',' :: '"' :: rest) =
          if d = '"' ∧ ('"' : Char) = ',' ∧ (',' : Char) = '"' then
            CsvFormatter.countSepOcc ('"' :: rest) + 1
          else CsvFormatter.countSepOcc ('"' :: ',' :: '"' :: rest) from rfl]
      rw [if_neg (by simp)]
      exact ih hv
    | cons e v2 =>
      have he : e ≠ ',' := by
        intro hee
        exact h (by simp [hee])
      rw [show ((d :: e :: v2) ++ '"' :: ',' :: '"' :: rest) =
          d :: e :: (v2 ++ '"' :: ',' :: '"' :: rest) from by simp]
      have hshape : ∃ c2 t2, v2 ++ '"' :: ',' :: '"' :: rest = c2 :: t2 := by
        cases v2 with
        | nil => exact ⟨'"', ',' :: '"' :: rest, rfl⟩
        | cons c2 t2 => exact ⟨c2, t2 ++ '"' :: ',' :: '"' :: rest, by simp⟩
      obtain ⟨c2, t2, hct⟩ := hshape
      rw [hct]
      rw [show CsvFormatter.countSepOcc (d :: e :: c2 :: t2) =
          if d = '"' ∧ e = ',' ∧ c2 = '"' then CsvFormatter.countSepOcc t2 + 1
          else CsvFormatter.countSepOcc (e :: c2 :: t2) from rfl]
      rw [if_neg (by tauto)]
      rw [← hct]
      exact ih hv

/-- A leading quote before a non-comma does not open a separator match. -/
theorem countSepOcc_cons_quote (w : List Char) (h : w.head? ≠ some ',') :
    CsvFormatter.countSepOcc ('"' :: w) = CsvFormatter.countSepOcc w := by
  cases w with
  | nil => rfl
  | cons b t =>
    have hb : b ≠ ',' := by
      intro hbe
      exact h (by simp [hbe])
    cases t with
    | nil => rfl
    | cons c t2 =>
      rw [show CsvFormatter.countSepOcc ('"' :: b :: c :: t2) =
          if ('"' : Char) = '"' ∧ b = ',' ∧ c = '"' then CsvFormatter.countSepOcc t2 + 1
          else CsvFormatter.countSepOcc (b :: c :: t2) from rfl]
      rw [if_neg (by tauto)]

/-- A field block followed by a closing quote starts with a non-comma. -/
theorem head?_field_ne_comma (g z : List Char) (hg : ',' ∉ g) :
    (g ++ '"' :: z).head? ≠ some ',' := by
  cases g with
  | nil => simp
  | cons e g2 =>
    have he : e ≠ ',' := fun hee => hg (by simp [hee])
    simp [he]

/-- The separator count of a rendered comma-free row is one less than its
field count. -/
theorem countSepOcc_renderRow (r : List (List Char)) (hr : r ≠ [])
    (hf : ∀ f ∈ r, ',' ∉ f) :
    CsvFormatter.countSepOcc (renderRow r) + 1 = r.length := by
  induction r with
  | nil => exact absurd rfl hr
  | cons f fs ih =>
    cases fs with
    | nil =>
      have hqf : ',' ∉ quoteField f := by
        intro hmem
        simp only [quoteField] at hmem
        rcases List.mem_cons.mp hmem with h | h
        · exact absurd h.symm (by decide)
        · rcases List.mem_append.mp h with h2 | h2
          · exact hf f (by simp) h2
          · simp at h2
      rw [show renderRow [f] = quoteField f from myInter_single _ _]
      rw [countSepOcc_no_comma _ hqf]
      rfl
    | cons g t =>
      obtain ⟨w2, hw2⟩ := renderRow_shape g t
      have hsplit : renderRow (f :: g :: t) =
          ('"' :: f) ++ '"' :: ',' :: '"' :: (g ++ '"' :: w2) := by
        show List.intercalate [','] (quoteField f :: quoteField g :: t.map quoteField) = _
        rw [myInter_cons]
        show quoteField f ++ [','] ++ renderRow (g :: t) = _
        rw [hw2]
        simp [quoteField, List.append_assoc]
      rw [hsplit]
      have hqf : ',' ∉ ('"' :: f) := by
        intro hmem
        rcases List.mem_cons.mp hmem with h | h
        · exact absurd h.symm (by decide)
        · exact hf f (by simp) h
      rw [countSepOcc_append_sep _ _ hqf]
      have hg : ',' ∉ g := hf g (by simp)
      have hback : CsvFormatter.countSepOcc (g ++ '"' :: w2) =
          CsvFormatter.countSepOcc (renderRow (g :: t)) := by
        rw [hw2]
        rw [countSepOcc_cons_quote _ (head?_field_ne_comma g w2 hg)]
      rw [hback]
      have hih := ih (by simp) (fun f2 hf2 => hf f2 (List.mem_cons_of_mem _ hf2))
      simp only [List.length_cons] at hih ⊢
      omega

/-- The column count of a rendered comma-free row is its field count. -/
theorem countColumns_renderRow (r : List (List Char)) (hr : r ≠ [])
    (hf : ∀ f ∈ r, ',' ∉ f) :
    CsvFormatter.countColumns (renderRow r) = r.length := by
  obtain ⟨f, fs, rfl⟩ := List.exists_cons_of_ne_nil hr
  obtain ⟨w, hw⟩ := renderRow_shape f fs
  unfold CsvFormatter.countColumns
  rw [if_neg (by rw [hw]; exact jsTrim_quote_ne_nil _)]
  exact countSepOcc_renderRow _ hr hf

/-- A quote-free field other than `id` cannot make the quoted-header prefix
match. -/
theorem startsWith_field_idq (f w : List Char) (hq : '"' ∉ f) (hid : f ≠ ['i', 'd']) :
    startsWithCh (f ++ '"' :: w) ['i', 'd', '"'] = false := by
  cases f with
  | nil => simp [startsWithCh]
  | cons a f2 =>
    cases f2 with
    | nil => simp [startsWithCh]
    | cons b f3 =>
      cases f3 with
      | nil =>
        by_cases ha : a = 'i'
        · subst ha
          have hb : b ≠ 'd' := fun h => hid (by rw [h])
          simp [startsWithCh, hb]
        · simp [startsWithCh, ha]
      | cons c f4 =>
        have hc : c ≠ '"' := fun h => hq (by simp [h])
        simp [startsWithCh, hc]

/-- A rendered data row whose first field is quote-free and differs from
`id` is not taken for a header line. -/
theorem isHeaderLine_renderRow (f : List Char) (fs : List (List Char))
    (hq : '"' ∉ f) (hid : f ≠ ['i', 'd']) :
    CsvWriter.isHeaderLine (renderRow (f :: fs)) = false := by
  obtain ⟨w, hw⟩ := renderRow_shape f fs
  rw [hw]
  unfold CsvWriter.isHeaderLine
  rw [show startsWithCh ('"' :: (f ++ '"' :: w)) ['"', 'i', 'd', '"'] =
      startsWithCh (f ++ '"' :: w) ['i', 'd', '"'] from by simp [startsWithCh]]
  rw [startsWith_field_idq f w hq hid]
  simp [startsWithCh]

/-- Padding a rendered 15-field row to 23 columns renders the row extended
with 8 empty fields. -/
theorem pad_renderRow (r : List (List Char)) (hr : r ≠ []) :
    CsvWriter.padCsvLine (renderRow r) 15 23 = renderRow (r ++ List.replicate 8 []) := by
  unfold CsvWriter.padCsvLine
  rw [if_neg (by omega)]
  show renderRow r ++ ',' :: List.intercalate [','] (List.replicate (23 - 15) ['"', '"']) =
    renderRow (r ++ List.replicate 8 [])
  unfold renderRow
  rw [List.map_append]
  rw [myInter_append [','] _ _ (by simpa using hr) (by simp)]
  have hmap : List.map quoteField (List.replicate 8 ([] : List Char)) =
      List.replicate 8 ['"', '"'] := by
    simp [List.map_replicate, quoteField]
  rw [hmap]
  rw [show (23 : Nat) - 15 = 8 from rfl]
  simp [List.append_assoc]

/-- The newline-joined rendered rows start with a quote. -/
theorem body_head (r0 : List (List Char)) (rest : List (List (List Char)))
    (h0 : r0 ≠ []) :
    ∃ v, List.intercalate ['\n'] ((r0 :: rest).map renderRow) = '"' :: v := by
  obtain ⟨f, fs, rfl⟩ := List.exists_cons_of_ne_nil h0
  obtain ⟨w, hw⟩ := renderRow_shape f fs
  cases rest with
  | nil =>
    exact ⟨f ++ '"' :: w, by simpa [myInter_single] using hw⟩
  | cons r2 rs2 =>
    refine ⟨(f ++ '"' :: w) ++ '\n' ::
      List.intercalate ['\n'] ((r2 :: rs2).map renderRow), ?_⟩
    rw [List.map_cons, List.map_cons, myInter_cons, ← List.map_cons, hw]
    simp [List.append_assoc]

/-- The newline-joined rendered rows end with a quote. -/
theorem body_last (rows : List (List (List Char))) (hne : rows ≠ [])
    (hrow : ∀ r ∈ rows, r ≠ []) :
    ∃ y, List.intercalate ['\n'] (rows.map renderRow) = y ++ ['"'] := by
  induction rows with
  | nil => exact absurd rfl hne
  | cons r rs ih =>
    cases rs with
    | nil =>
      obtain ⟨y, hy⟩ := renderRow_last r (hrow r (by simp))
      exact ⟨y, by simpa [myInter_single] using hy⟩
    | cons r2 rs2 =>
      obtain ⟨y, hy⟩ := ih (by simp) (fun r2 h2 => hrow r2 (List.mem_cons_of_mem _ h2))
      refine ⟨renderRow r ++ '\n' :: y, ?_⟩
      rw [List.map_cons, List.map_cons, myInter_cons, ← List.map_cons, hy]
      simp [List.append_assoc]

/-- C7: `ensureHeader()` on an existing, unheaded file whose rows are 15
all-quoted columns (fields free of quotes, commas and newlines, first field
not the literal `id`) rewrites it into the canonically headed file in which
every original row is extended by 8 empty quoted fields — preserving field
order and content — so that every row has exactly 23 columns. -/
theorem C7_header_migration (r0 : List (List Char)) (rest : List (List (List Char)))
    (hlen : ∀ r ∈ r0 :: rest, r.length = 15)
    (hfield : ∀ r ∈ r0 :: rest, ∀ f ∈ r, '"' ∉ f ∧ ',' ∉ f ∧ '\n' ∉ f)
    (hid : r0.headD [] ≠ ['i', 'd']) :
    CsvWriter.ensureHeaderContent (renderFile (r0 :: rest)) =
      some (CsvWriter.csvHeader ++ '\n' ::
        (List.intercalate ['\n']
          ((r0 :: rest).map fun r => renderRow (r ++ List.replicate 8 [])) ++ ['\n'])) ∧
    ∀ r ∈ r0 :: rest, (r ++ List.replicate 8 ([] : List Char)).length = 23 ∧
      CsvFormatter.countColumns (renderRow (r ++ List.replicate 8 [])) = 23 := by
  have hne_row : ∀ r ∈ r0 :: rest, r ≠ [] := by
    intro r hr hcon
    have := hlen r hr
    rw [hcon] at this
    simp at this
  obtain ⟨f0, r0t, hr0⟩ : ∃ f0 r0t, r0 = f0 :: r0t := by
    obtain ⟨a, b, hab⟩ := List.exists_cons_of_ne_nil (hne_row r0 (by simp))
    exact ⟨a, b, hab⟩
  have hcomma : ∀ r ∈ r0 :: rest, ∀ f ∈ r, ',' ∉ f :=
    fun r hr f hf => (hfield r hr f hf).2.1
  obtain ⟨v, hv⟩ := body_head r0 rest (hne_row r0 (by simp))
  obtain ⟨y, hy⟩ := body_last (r0 :: rest) (by simp) hne_row
  have htrim : jsTrim (List.intercalate ['\n'] ((r0 :: rest).map renderRow) ++ ['\n']) =
      List.intercalate ['\n'] ((r0 :: rest).map renderRow) :=
    jsTrim_wrap _ v y hv hy
  have hbody_ne : List.intercalate ['\n'] ((r0 :: rest).map renderRow) ≠ [] := by
    rw [hv]
    simp
  have hnonl : ∀ l ∈ (r0 :: rest).map renderRow, '\n' ∉ l := by
    intro l hl hmem
    obtain ⟨r, hr, rfl⟩ := List.mem_map.mp hl
    rcases renderRow_mem _ _ hmem with h | h | ⟨f, hfm, hcf⟩
    · exact absurd h (by decide)
    · exact absurd h (by decide)
    · exact (hfield r hr f hfm).2.2 hcf
  have hsplit : (List.intercalate ['\n'] ((r0 :: rest).map renderRow)).splitOn '\n' =
      (r0 :: rest).map renderRow :=
    List.splitOn_intercalate ((r0 :: rest).map renderRow) '\n' hnonl (by simp)
  have hheadD : ((r0 :: rest).map renderRow).headD [] = renderRow r0 := by
    simp
  have hheader : CsvWriter.isHeaderLine (renderRow r0) = false := by
    rw [hr0]
    refine isHeaderLine_renderRow f0 r0t ?_ ?_
    · exact (hfield r0 (by simp) f0 (by rw [hr0]; simp)).1
    · rw [hr0] at hid
      simpa using hid
  have hcount0 : CsvFormatter.countColumns (renderRow r0) = 15 := by
    rw [countColumns_renderRow r0 (hne_row r0 (by simp)) (hcomma r0 (by simp))]
    exact hlen r0 (by simp)
  have hpadtail : (rest.map renderRow).map
      (fun l => CsvWriter.padCsvLine l (CsvFormatter.countColumns l) CsvWriter.csvColumnCount) =
      rest.map (fun r => renderRow (r ++ List.replicate 8 [])) := by
    rw [List.map_map]
    refine List.map_congr_left ?_
    intro r hr
    have hr2 : r ∈ r0 :: rest := List.mem_cons_of_mem _ hr
    show CsvWriter.padCsvLine (renderRow r)
      (CsvFormatter.countColumns (renderRow r)) CsvWriter.csvColumnCount = _
    rw [countColumns_renderRow r (hne_row r hr2) (hcomma r hr2), hlen r hr2]
    rw [show CsvWriter.csvColumnCount = 23 from rfl]
    exact pad_renderRow r (hne_row r hr2)
  have hpadhead : CsvWriter.padCsvLine (renderRow r0) 15 CsvWriter.csvColumnCount =
      renderRow (r0 ++ List.replicate 8 []) := by
    rw [show CsvWriter.csvColumnCount = 23 from rfl]
    exact pad_renderRow r0 (hne_row r0 (by simp))
  constructor
  · show CsvWriter.ensureHeaderContent
      (List.intercalate ['\n'] ((r0 :: rest).map renderRow) ++ ['\n']) = _
    unfold CsvWriter.ensureHeaderContent
    simp only [htrim, hsplit]
    rw [if_neg hbody_ne]
    simp only [hheadD, hheader, Bool.false_eq_true, if_false]
    rw [if_neg (by simp)]
    simp only [List.getD_cons_zero, List.map_cons]
    simp only [hcount0]
    rw [if_neg (by rw [show CsvWriter.csvColumnCount = 23 from rfl]; omega)]
    rw [hpadhead, hpadtail]
    set_option maxRecDepth 100000 in rfl
  · intro r hr
    constructor
    · rw [List.length_append, List.length_replicate, hlen r hr]
    · have hne2 : r ++ List.replicate 8 ([] : List Char) ≠ [] := by
        cases r with
        | nil => exact absurd rfl (hne_row [] hr)
        | cons a b => simp
      have hcomma2 : ∀ f ∈ r ++ List.replicate 8 ([] : List Char), ',' ∉ f := by
        intro f hf
        rcases List.mem_append.mp hf with h | h
        · exact hcomma r hr f h
        · have : f = [] := List.eq_of_mem_replicate h
          rw [this]
          simp
      rw [countColumns_renderRow _ hne2 hcomma2]
      rw [List.length_append, List.length_replicate, hlen r hr]

/-- C7 witness: the migration theorem applied to a concrete one-row
15-column legacy file. -/
theorem C7_header_migration_witness :
    CsvWriter.ensureHeaderContent (renderFile [rowC7]) =
      some (CsvWriter.csvHeader ++ '\n' ::
        (List.intercalate ['\n']
          ([rowC7].map fun r => renderRow (r ++ List.replicate 8 [])) ++ ['\n'])) :=
  (C7_header_migration rowC7 []
    (by set_option maxRecDepth 8192 in decide)
    (by set_option maxRecDepth 8192 in decide)
    (by decide)).1
